import Mathlib

/-!
Alpaca: proxy resolution through a PAC script.

A shallow embedding of `proxyfinder.go` and `pacrunner.go`:

* `ProxyFinder.downloadPACFile`, `newProxyFinder`, `ProxyFinder.findProxyForRequest`
* `NewPACRunner`, `PACRunner.FindProxyForURL`

together with the parts of the Go standard library these functions lean on
(`strings.Split`, `strings.TrimSpace`, `fmt.Sscanf` for the two formats used,
`net/url` rendering and `URL.Port`, `net.JoinHostPort`).

Go strings are modelled as sequences of code points (`List Char`), that is, as
valid UTF-8.  The JavaScript interpreter, the HTTP client and the network
monitor are inputs of the model: what they return is supplied by a `World`.
Execution is sequential; the mutex of `PACRunner` is not represented.
-/

namespace Alpaca

/-- A Go string, as its sequence of code points. -/
abbrev Str := List Char

/-! ## Package `unicode` and `strings` -/

/-- Membership of a code point in a sorted table of inclusive ranges, scanned the way
`fmt.isSpace` scans its table: stop at the first range that starts above the value. -/
def inRanges : List (Nat × Nat) → Nat → Bool
  | [], _ => false
  | (lo, hi) :: rest, rx =>
    if rx < lo then false
    else if rx ≤ hi then true
    else inRanges rest rx

/-- The table `space` of package `fmt` (a copy of `unicode.White_Space`). -/
def space : List (Nat × Nat) :=
  [(0x0009, 0x000d), (0x0020, 0x0020), (0x0085, 0x0085), (0x00a0, 0x00a0),
   (0x1680, 0x1680), (0x2000, 0x200a), (0x2028, 0x2029), (0x202f, 0x202f),
   (0x205f, 0x205f), (0x3000, 0x3000)]

/-- The function `isSpace` of package `fmt`. -/
def isSpace (r : Char) : Bool :=
  if r.toNat ≥ 65536 then false else inRanges space r.toNat

/-- The function `notSpace` of package `fmt`, the default token predicate. -/
def notSpace (r : Char) : Bool := !isSpace r

/-- The ranges of `unicode.White_Space` above Latin-1. -/
def whiteSpaceAboveLatin1 : List (Nat × Nat) :=
  [(0x1680, 0x1680), (0x2000, 0x200a), (0x2028, 0x2029), (0x202f, 0x202f),
   (0x205f, 0x205f), (0x3000, 0x3000)]

/-- The function `unicode.IsSpace`: a switch for Latin-1, the range table above it. -/
def unicodeIsSpace (r : Char) : Bool :=
  let n := r.toNat
  if n ≤ 0xFF then
    n == 0x09 || n == 0x0a || n == 0x0b || n == 0x0c || n == 0x0d || n == 0x20 ||
      n == 0x85 || n == 0xA0
  else
    whiteSpaceAboveLatin1.any (fun rg => rg.1 ≤ n && n ≤ rg.2)

/-- The function `strings.TrimLeftFunc`. -/
def TrimLeftFunc (s : Str) (f : Char → Bool) : Str := s.dropWhile f

/-- The function `strings.TrimRightFunc`. -/
def TrimRightFunc (s : Str) (f : Char → Bool) : Str := (s.reverse.dropWhile f).reverse

/-- The function `strings.TrimSpace`: leading and trailing white space removed. -/
def TrimSpace (s : Str) : Str := TrimRightFunc (TrimLeftFunc s unicodeIsSpace) unicodeIsSpace

/-- The function `strings.Split` for a separator of one character. -/
def Split : Str → Char → List Str
  | [], _ => [[]]
  | c :: cs, sep =>
    if c = sep then [] :: Split cs sep
    else
      match Split cs sep with
      | [] => [[c]]
      | seg :: rest => (c :: seg) :: rest

/-! ## Package `fmt`: scanning with the format `KEYWORD %s` -/

/-- The errors a scan can end in. -/
inductive ScanError
  /-- The error `io.ErrUnexpectedEOF`: input ended inside a literal of the format. -/
  | unexpectedEOF
  /-- The error `io.EOF`: no input left for the operand. -/
  | EOF
  /-- The message "input does not match format". -/
  | inputDoesNotMatchFormat
  /-- The message "expected space in input to match format". -/
  | expectedSpace
  /-- The message "newline in input does not match format". -/
  | newlineInInput
  /-- The message "unexpected newline". -/
  | unexpectedNewline
  deriving DecidableEq, Repr

/-- The literal branch of `ss.advance`: every rune of the format literal must be the next
rune of the input; end of input is `io.ErrUnexpectedEOF` (`mustReadRune`), a different
rune makes `advance` return -1, which `doScanf` reports as a mismatch. -/
def advanceLiteral : Str → Str → Except ScanError Str
  | [], inp => .ok inp
  | _ :: _, [] => .error .unexpectedEOF
  | f :: fs, c :: cs => if f = c then advanceLiteral fs cs else .error .inputDoesNotMatchFormat

/-- The loop `for isSpace(inputc) && inputc != newline` of `ss.advance`, followed by its
`UnreadRune`: spaces other than newline are consumed. -/
def skipBlanks : Str → Str
  | [] => []
  | c :: cs => if isSpace c && c != '\n' then skipBlanks cs else c :: cs

/-- The space branch of `ss.advance` for a single space of the format that follows no
newline: it matches one or more spaces of the input, or the end of the input. -/
def advanceSpace : Str → Except ScanError Str
  | [] => .ok []
  | c :: cs =>
    if !isSpace c then .error .expectedSpace
    else if c = '\n' then .error .newlineInInput
    else .ok (skipBlanks cs)

/-- The method `ss.SkipSpace` with `nlIsSpace = false`, as `Sscanf` sets it. -/
def SkipSpace : Str → Except ScanError Str
  | [] => .ok []
  | c :: cs =>
    if c = '\r' && cs.head? = some '\n' then SkipSpace cs
    else if c = '\n' then .error .unexpectedNewline
    else if !isSpace c then .ok (c :: cs)
    else SkipSpace cs

/-- The verb `%s` as `doScanf` runs it: `SkipSpace`, then `convertString`, which skips
space again, fails with `io.EOF` on empty input (`notEOF`) and returns the next word
(`token(true, notSpace)`).  The result is the word and the input left over. -/
def scanString (inp : Str) : Except ScanError (Str × Str) :=
  match SkipSpace inp with
  | .error e => .error e
  | .ok i1 =>
    match SkipSpace i1 with
    | .error e => .error e
    | .ok [] => .error .EOF
    | .ok (c :: cs) =>
      match SkipSpace (c :: cs) with
      | .error e => .error e
      | .ok i3 => .ok (i3.takeWhile notSpace, i3.dropWhile notSpace)

/-- The call `fmt.Sscanf(str, kw + " %s", &host)` for a keyword `kw` of plain characters
(no space, no percent sign).  It returns the number of operands scanned, the error, and
the value of `host` afterwards (unchanged when nothing was scanned).  Input left over
after the word is not looked at.  The cap of the scanner on the number of runes it reads
(`hugeWid`, 2^30) is not represented. -/
def Sscanf (str kw host : Str) : Nat × Option ScanError × Str :=
  match advanceLiteral kw str with
  | .error e => (0, some e, host)
  | .ok i1 =>
    match advanceSpace i1 with
    | .error e => (0, some e, host)
    | .ok i2 =>
      match scanString i2 with
      | .error e => (0, some e, host)
      | .ok (word, _) => (1, none, word)

/-! ## Package `net/url` and `net` -/

/-- The function `strings.LastIndexByte`; `none` stands for -1. -/
def LastIndexByte : Str → Char → Option Nat
  | [], _ => none
  | x :: xs, c =>
    match LastIndexByte xs c with
    | some i => some (i + 1)
    | none => if x = c then some 0 else none

/-- The function `validOptionalPort` of `net/url`: empty, or a colon followed by digits
only (possibly none). -/
def validOptionalPort : Str → Bool
  | [] => true
  | p0 :: rest => p0 == ':' && rest.all (fun b => '0'.toNat ≤ b.toNat && b.toNat ≤ '9'.toNat)

/-- Whether `host` is wrapped in square brackets (`HasPrefix "["` and `HasSuffix "]"`). -/
def bracketed (host : Str) : Bool :=
  host.head? == some '[' && host.getLast? == some ']'

/-- The function `splitHostPort` of `net/url`: host and port of `hostPort`; when the part
after the last colon is not numeric the whole input is the host. -/
def splitHostPort (hostPort : Str) : Str × Str :=
  let hp : Str × Str :=
    match LastIndexByte hostPort ':' with
    | some colon =>
      if validOptionalPort (hostPort.drop colon) then
        (hostPort.take colon, hostPort.drop (colon + 1))
      else (hostPort, [])
    | none => (hostPort, [])
  if bracketed hp.1 then ((hp.1.drop 1).take (hp.1.length - 2), hp.2) else hp

/-- The function `net.JoinHostPort`: a host with a colon is taken for a literal IPv6
address and bracketed. -/
def JoinHostPort (host port : Str) : Str :=
  if host.contains ':' then ['['] ++ host ++ [']', ':'] ++ port
  else host ++ [':'] ++ port

/-- The type `url.Userinfo`. -/
structure Userinfo where
  username : Str
  password : Str
  passwordSet : Bool
  deriving DecidableEq, Repr

/-- The type `url.URL`. -/
structure URL where
  Scheme : Str := []
  Opaque : Str := []
  User : Option Userinfo := none
  Host : Str := []
  Path : Str := []
  RawPath : Str := []
  OmitHost : Bool := false
  ForceQuery : Bool := false
  RawQuery : Str := []
  Fragment : Str := []
  RawFragment : Str := []
  deriving DecidableEq, Repr

/-- The method `URL.Port`. -/
def URL.Port (u : URL) : Str := (splitHostPort u.Host).2

/-- The method `URL.Hostname`. -/
def URL.Hostname (u : URL) : Str := (splitHostPort u.Host).1

/-- The escaping modes of `net/url`. -/
inductive encoding
  | encodePath
  | encodePathSegment
  | encodeHost
  | encodeZone
  | encodeUserPassword
  | encodeQueryComponent
  | encodeFragment
  deriving DecidableEq, Repr

/-- The UTF-8 encoding of a code point, as byte values. -/
def utf8Bytes (c : Char) : List Nat :=
  let n := c.toNat
  if n < 0x80 then [n]
  else if n < 0x800 then [0xC0 + n / 64, 0x80 + n % 64]
  else if n < 0x10000 then [0xE0 + n / 4096, 0x80 + (n / 64) % 64, 0x80 + n % 64]
  else [0xF0 + n / 262144, 0x80 + (n / 4096) % 64, 0x80 + (n / 64) % 64, 0x80 + n % 64]

/-- The bytes of a Go string. -/
def bytes (s : Str) : List Nat := s.flatMap utf8Bytes

/-- Whether byte `c` is one of the characters of `cs`. -/
def byteIn (c : Nat) (cs : Str) : Bool := cs.any (fun x => x.toNat == c)

/-- The function `shouldEscape` of `net/url`. -/
def shouldEscape (c : Nat) (mode : encoding) : Bool :=
  if ('a'.toNat ≤ c && c ≤ 'z'.toNat) || ('A'.toNat ≤ c && c ≤ 'Z'.toNat) ||
      ('0'.toNat ≤ c && c ≤ '9'.toNat) then false
  else if (mode = .encodeHost || mode = .encodeZone) &&
      byteIn c ['!', '$', '&', Char.ofNat 39, '(', ')', '*', '+', ',', ';', '=', ':',
        '[', ']', '<', '>', '"'] then false
  else if byteIn c ['-', '_', '.', '~'] then false
  else if byteIn c ['$', '&', '+', ',', '/', ':', ';', '=', '?', '@'] &&
      (mode = .encodePath || mode = .encodePathSegment || mode = .encodeUserPassword ||
        mode = .encodeQueryComponent || mode = .encodeFragment) then
    match mode with
    | .encodePath => c == '?'.toNat
    | .encodePathSegment =>
      c == '/'.toNat || c == ';'.toNat || c == ','.toNat || c == '?'.toNat
    | .encodeUserPassword =>
      c == '@'.toNat || c == '/'.toNat || c == '?'.toNat || c == ':'.toNat
    | .encodeQueryComponent => true
    | _ => false
  else if mode = .encodeFragment && byteIn c ['!', '(', ')', '*'] then false
  else true

/-- The table `upperhex` of `net/url`, indexed by a value below 16. -/
def upperhex (d : Nat) : Char :=
  if d < 10 then Char.ofNat ('0'.toNat + d) else Char.ofNat ('A'.toNat + (d - 10))

/-- The function `escape` of `net/url`: bytes that `shouldEscape` selects become `%XX`; in
query-component mode a space becomes a plus sign. -/
def escape (s : Str) (mode : encoding) : Str :=
  (bytes s).flatMap (fun b =>
    if b == ' '.toNat && mode = .encodeQueryComponent then ['+']
    else if shouldEscape b mode then ['%', upperhex (b / 16), upperhex (b % 16)]
    else [Char.ofNat b])

/-- The function `ishex` of `net/url`. -/
def ishex (c : Nat) : Bool :=
  ('0'.toNat ≤ c && c ≤ '9'.toNat) || ('a'.toNat ≤ c && c ≤ 'f'.toNat) ||
    ('A'.toNat ≤ c && c ≤ 'F'.toNat)

/-- The function `unhex` of `net/url`. -/
def unhex (c : Nat) : Nat :=
  if '0'.toNat ≤ c && c ≤ '9'.toNat then c - '0'.toNat
  else if 'a'.toNat ≤ c && c ≤ 'f'.toNat then c - 'a'.toNat + 10
  else if 'A'.toNat ≤ c && c ≤ 'F'.toNat then c - 'A'.toNat + 10
  else 0

/-- The function `unescape` of `net/url` on bytes, for the modes `encodePath` and
`encodeFragment` (the two that `EscapedPath` and `EscapedFragment` use): every percent
sign must start a `%XX` triple, which is decoded; all other bytes are kept.  The result
is `none` on an escape error. -/
def unescape : List Nat → Option (List Nat)
  | [] => some []
  | c :: rest =>
    if c = '%'.toNat then
      match rest with
      | a :: b :: rest2 =>
        if ishex a && ishex b then
          (unescape rest2).map (fun t => (unhex a * 16 + unhex b) :: t)
        else none
      | _ => none
    else (unescape rest).map (fun t => c :: t)

/-- The function `validEncoded` of `net/url`. -/
def validEncoded (s : Str) (mode : encoding) : Bool :=
  (bytes s).all (fun b =>
    byteIn b ['!', '$', '&', Char.ofNat 39, '(', ')', '*', '+', ',', ';', '=', ':', '@',
      '[', ']', '%'] || !shouldEscape b mode)

/-- The method `URL.EscapedPath`: `RawPath` when it is a valid encoding of `Path`,
otherwise the escaped `Path`. -/
def URL.EscapedPath (u : URL) : Str :=
  if u.RawPath ≠ [] && validEncoded u.RawPath .encodePath &&
      unescape (bytes u.RawPath) == some (bytes u.Path) then u.RawPath
  else if u.Path = ['*'] then ['*']
  else escape u.Path .encodePath

/-- The method `URL.EscapedFragment`. -/
def URL.EscapedFragment (u : URL) : Str :=
  if u.RawFragment ≠ [] && validEncoded u.RawFragment .encodeFragment &&
      unescape (bytes u.RawFragment) == some (bytes u.Fragment) then u.RawFragment
  else escape u.Fragment .encodeFragment

/-- The method `Userinfo.String`. -/
def Userinfo.String (ui : Userinfo) : Str :=
  let s := escape ui.username .encodeUserPassword
  if ui.passwordSet then s ++ [':'] ++ escape ui.password .encodeUserPassword else s

/-- The method `URL.String`: the URL reassembled as `scheme:opaque?query#fragment` or
`scheme://userinfo@host/path?query#fragment`. -/
def URL.String (u : URL) : Str :=
  let buf : Str := if u.Scheme ≠ [] then u.Scheme ++ [':'] else []
  let buf : Str :=
    if u.Opaque ≠ [] then buf ++ u.Opaque
    else
      let buf : Str :=
        if u.Scheme ≠ [] || u.Host ≠ [] || u.User.isSome then
          if u.OmitHost && u.Host = [] && u.User.isNone then buf
          else
            let buf : Str :=
              if u.Host ≠ [] || u.Path ≠ [] || u.User.isSome then buf ++ ['/', '/'] else buf
            let buf : Str :=
              match u.User with
              | some ui => buf ++ ui.String ++ ['@']
              | none => buf
            if u.Host ≠ [] then buf ++ escape u.Host .encodeHost else buf
        else buf
      let path := u.EscapedPath
      let buf : Str :=
        if path ≠ [] && path.head? != some '/' && u.Host ≠ [] then buf ++ ['/'] else buf
      let buf : Str :=
        if buf = [] && (path.takeWhile (fun c => c != '/')).contains ':' then
          buf ++ ['.', '/']
        else buf
      buf ++ path
  let buf : Str := if u.ForceQuery || u.RawQuery ≠ [] then buf ++ ['?'] ++ u.RawQuery else buf
  if u.Fragment ≠ [] then buf ++ ['#'] ++ u.EscapedFragment else buf

/-! ## The collaborators: interpreter, HTTP client, network monitor -/

/-- A Go `error` value, as far as the resolver meets one. -/
inductive Error
  /-- An error of `fmt.Sscanf`. -/
  | scan (e : ScanError)
  /-- The error `errors.New("FindProxyForURL didn't return a string")`. -/
  | notAString
  /-- Any error of the interpreter or of the HTTP client, with its message. -/
  | other (msg : Str)
  deriving DecidableEq, Repr

/-- An `otto.Value`: a string, or a value of another type together with the text that
`String()` would render. -/
inductive Value
  | string (s : Str)
  | nonString (rendered : Str)
  deriving DecidableEq, Repr

/-- The method `Value.IsString`. -/
def Value.IsString : Value → Bool
  | .string _ => true
  | .nonString _ => false

/-- The method `Value.String`. -/
def Value.String : Value → Str
  | .string s => s
  | .nonString r => r

/-- An interpreter instance `*otto.Otto` with a PAC script loaded.  The script is a
deterministic program with state of its own, so what a call of its `FindProxyForURL`
returns is a function of the calls made before and of the arguments; `history` is the
list of the calls made so far, latest first. -/
structure Otto where
  script : List (Str × Str) → Str → Str → Except Error Value
  history : List (Str × Str) := []

/-- The call `vm.Call("FindProxyForURL", nil, url, host)`: the interpreter afterwards and
the result. -/
def Otto.Call (vm : Otto) (url host : Str) : Otto × Except Error Value :=
  ({ vm with history := (url, host) :: vm.history }, vm.script vm.history url host)

/-- The interpreter library as the world provides it: what `vm.Set(name, handler)` returns
on a fresh instance, and what `vm.Run(source)` does on a fresh instance with the three
host functions set, yielding the loaded instance or an error. -/
structure JS where
  Set : Str → Option Error
  Run : Str → Except Error Otto

/-- An `http.Response`, as far as it is read. -/
structure Response where
  Status : Str
  StatusCode : Nat
  Body : Str

/-- The surroundings of one call: the answer of `noProxyClient.Get`, the interpreter
library, and the answer of `netMonitor.AddrsChanged()`.  The network monitor is a
collaborator whose answer is an input here. -/
structure World where
  Get : Str → Except Error Response
  js : JS
  AddrsChanged : Bool

/-- The constant `http.StatusOK`. -/
def StatusOK : Nat := 200

/-! ## pacrunner.go -/

/-- The type `PACRunner` (its mutex left out). -/
structure PACRunner where
  vm : Otto

/-- The function `NewPACRunner`: register the three host functions, stopping at the first
error, then run the source `r`; any error yields a nil runner. -/
def NewPACRunner (js : JS) (r : Str) : Option PACRunner × Option Error :=
  let set := fun (err : Option Error) (name : Str) =>
    if err.isSome then err else js.Set name
  let err : Option Error := none
  let err := set err "isPlainHostName".toList
  let err := set err "dnsDomainIs".toList
  let err := set err "shExpMatch".toList
  if err.isSome then (none, err)
  else
    match js.Run r with
    | .error e => (none, some e)
    | .ok vm => (some { vm := vm }, none)

/-- The method `PACRunner.FindProxyForURL`.  The argument is a pointer, so the assignments
to `u.Path`, `u.RawPath`, `u.RawQuery` and `u.Fragment` change the URL of the caller: the
URL afterwards is returned along with the runner afterwards and the Go results. -/
def PACRunner.FindProxyForURL (pr : PACRunner) (u : URL) :
    PACRunner × URL × Str × Option Error :=
  let u : URL :=
    if u.Scheme = ['h', 't', 't', 'p', 's'] || u.Scheme = ['w', 's', 's'] then
      { u with Path := [], RawPath := [], RawQuery := [], Fragment := [] }
    else u
  let (vm, r) := pr.vm.Call u.String u.Hostname
  match r with
  | .error err => ({ vm := vm }, u, [], some err)
  | .ok val =>
    if !val.IsString then ({ vm := vm }, u, [], some .notAString)
    else ({ vm := vm }, u, val.String, none)

/-! ## proxyfinder.go -/

/-- The type `ProxyFinder`.  A nil `pacRunner` is `none`. -/
structure ProxyFinder where
  pacURL : Str
  pacRunner : Option PACRunner := none
  online : Bool := false

/-- A line written by `log.Printf`, with the values it formats. -/
inductive LogEntry
  | errorDownloading (err : Error)
  | getReturned (pacURL status : Str)
  | errorCreatingRunner (err : Error)
  | via (id : Nat) (method url s : Str)
  | ignoringAllButFirst (id : Nat) (s : Str)
  | ignoringSocks (id : Nat) (host : Str)
  | couldntParse (id : Nat) (s : Str)
  deriving DecidableEq, Repr

/-- The method `ProxyFinder.downloadPACFile`. -/
def ProxyFinder.downloadPACFile (w : World) (pf : ProxyFinder) :
    ProxyFinder × List LogEntry :=
  match w.Get pf.pacURL with
  | .error err => ({ pf with online := false }, [.errorDownloading err])
  | .ok resp =>
    let log := [LogEntry.getReturned pf.pacURL resp.Status]
    if resp.StatusCode ≠ StatusOK then ({ pf with online := false }, log)
    else
      let (runner, err) := NewPACRunner w.js resp.Body
      let pf := { pf with pacRunner := runner }
      match err with
      | some e => ({ pf with online := false }, log ++ [.errorCreatingRunner e])
      | none => ({ pf with online := true }, log)

/-- The function `newProxyFinder`: a finder with nil runner, then one download. -/
def newProxyFinder (w : World) (pacURL : Str) : ProxyFinder × List LogEntry :=
  ProxyFinder.downloadPACFile w { pacURL := pacURL }

/-- An `http.Request`, as far as it is read: method, URL and the id of its context. -/
structure Request where
  Method : Str
  URL : URL
  id : Nat
  deriving DecidableEq, Repr

/-- How a Go call ends: a run-time panic (nil pointer, index out of range) or the pair of
returned values, where `none` is nil. -/
inductive Return
  | panic
  | values (proxy : Option URL) (err : Option Error)
  deriving DecidableEq, Repr

/-- Everything a call of `findProxyForRequest` leaves behind: the finder and the request
afterwards, what was returned, the log lines written and the arguments of every call of
the script, in order. -/
structure Outcome where
  pf : ProxyFinder
  req : Request
  ret : Return
  log : List LogEntry
  invoked : List (Str × Str)

/-- Lines 48 to 74 of proxyfinder.go: the string `s` returned by the script is cut at the
semicolons, and the trimmed first piece is read as `DIRECT`, `PROXY host` or
`SOCKS host`. -/
def parseResult (id : Nat) (s : Str) : Return × List LogEntry :=
  let ss := Split s ';'
  let log : List LogEntry := if ss.length > 1 then [.ignoringAllButFirst id s] else []
  match ss with
  | [] => (.panic, log)
  | ss0 :: _ =>
    let trimmed := TrimSpace ss0
    if trimmed = ['D', 'I', 'R', 'E', 'C', 'T'] then (.values none none, log)
    else
      let host : Str := []
      let (n, err, host) := Sscanf trimmed ['P', 'R', 'O', 'X', 'Y'] host
      if err = none && n = 1 then
        let proxy : URL := { Host := host }
        let proxy : URL :=
          if proxy.Port = [] then { proxy with Host := JoinHostPort host ['8', '0'] } else proxy
        (.values (some proxy) none, log)
      else
        let (n, err, host) := Sscanf trimmed ['S', 'O', 'C', 'K', 'S'] host
        if err = none && n = 1 then (.values none none, log ++ [.ignoringSocks id host])
        else (.values none (err.map Error.scan), log ++ [.couldntParse id s])

/-- The method `ProxyFinder.findProxyForRequest`. -/
def ProxyFinder.findProxyForRequest (w : World) (pf : ProxyFinder) (req : Request) :
    Outcome :=
  let (pf, log) := if w.AddrsChanged then pf.downloadPACFile w else (pf, [])
  if !pf.online then { pf := pf, req := req, ret := .values none none, log := log, invoked := [] }
  else
    match pf.pacRunner with
    | none => { pf := pf, req := req, ret := .panic, log := log, invoked := [] }
    | some pr =>
      let (pr, u, s, err) := pr.FindProxyForURL req.URL
      let pf := { pf with pacRunner := some pr }
      let req := { req with URL := u }
      let invoked := [(u.String, u.Hostname)]
      match err with
      | some e => { pf := pf, req := req, ret := .values none (some e), log := log, invoked := invoked }
      | none =>
        let log := log ++ [.via req.id req.Method req.URL.String s]
        let (ret, log2) := parseResult req.id s
        { pf := pf, req := req, ret := ret, log := log ++ log2, invoked := invoked }

/-! ## Runs of the resolver -/

/-- One step the resolver can take after construction. -/
inductive Op
  | refresh (w : World)
  | resolve (w : World) (req : Request)

/-- The finder after one step. -/
def Op.run (pf : ProxyFinder) : Op → ProxyFinder
  | .refresh w => (pf.downloadPACFile w).1
  | .resolve w req => (pf.findProxyForRequest w req).pf

/-- The finder after construction in world `w0` with PAC URL `pacURL`, followed by the
steps `ops`. -/
def runFrom (w0 : World) (pacURL : Str) (ops : List Op) : ProxyFinder :=
  ops.foldl Op.run (newProxyFinder w0 pacURL).1

/-! ## Worlds and requests for the examples -/

/-- A script that returns the string `s` for every request. -/
def constScript (s : Str) : Otto := { script := fun _ _ _ => .ok (.string s) }

/-- A runner of the script that always returns `s`. -/
def constRunner (s : Str) : PACRunner := { vm := constScript s }

/-- A world with a quiet network in which the PAC server answers 404. -/
def world404 : World :=
  { Get := fun _ => .ok { Status := "404 Not Found".toList, StatusCode := 404, Body := [] }
    js := { Set := fun _ => none, Run := fun _ => .error (.other "unused".toList) }
    AddrsChanged := false }

/-- A world with a quiet network in which the PAC server serves a script whose
`FindProxyForURL` always returns `s`. -/
def worldServing (s : Str) : World :=
  { Get := fun _ => .ok { Status := "200 OK".toList, StatusCode := 200, Body := [] }
    js := { Set := fun _ => none, Run := fun _ => .ok (constScript s) }
    AddrsChanged := false }

/-- An online finder whose script always returns `s`. -/
def onlineFinder (s : Str) : ProxyFinder :=
  { pacURL := "http://pac/".toList, pacRunner := some (constRunner s), online := true }

/-- A GET request for `u`. -/
def getRequest (u : URL) : Request := { Method := "GET".toList, URL := u, id := 1 }

/-- The URL `scheme://host/path?query#fragment`, from its parts. -/
def urlOf (scheme host path query fragment : String) : URL :=
  { Scheme := scheme.toList
    Host := host.toList
    Path := path.toList
    RawQuery := query.toList
    Fragment := fragment.toList }

/-- The URL `u` with user name and password added. -/
def withUser (u : URL) (name password : String) : URL :=
  { u with User := some { username := name.toList, password := password.toList, passwordSet := true } }

/-! ## Vocabulary of the statements -/

/-- The whitespace-trimmed first piece of a script result cut at the semicolons. -/
def firstEntry (s : Str) : Str := TrimSpace ((Split s ';').headD [])

/-- The finder as `findProxyForRequest` sees it after its first statement: refreshed when
the network monitor reports a change, untouched otherwise. -/
def ProxyFinder.afterCheck (w : World) (pf : ProxyFinder) : ProxyFinder :=
  if w.AddrsChanged then (pf.downloadPACFile w).1 else pf

/-- The call `pf.findProxyForRequest w req` evaluates the script and the script returns
the string `s`: after the network check the finder is online with a runner whose
`FindProxyForURL` yields `s` and no error for the URL of the request. -/
def ScriptResult (w : World) (pf : ProxyFinder) (req : Request) (s : Str) : Prop :=
  ∃ pr, (pf.afterCheck w).online = true ∧ (pf.afterCheck w).pacRunner = some pr ∧
    (pr.FindProxyForURL req.URL).2.2 = (s, none)

/-- The string `t` is the keyword `kw`, then white space, then a host token, possibly with
more after it. -/
def KeywordThenHost (kw t : Str) : Prop :=
  ∃ ws tok rest, t = kw ++ ws ++ tok ++ rest ∧ ws ≠ [] ∧ (∀ c ∈ ws, isSpace c = true) ∧
    tok ≠ [] ∧ (∀ c ∈ tok, isSpace c = false)

/-- A run of blanks as a format space accepts it: not empty, white space only, no
newline. -/
def Blanks (ws : Str) : Prop :=
  ws ≠ [] ∧ ∀ c ∈ ws, isSpace c = true ∧ c ≠ '\n'

/-- A host token: not empty and free of white space. -/
def Token (h : Str) : Prop :=
  h ≠ [] ∧ ∀ c ∈ h, isSpace c = false

/-- A port number: not empty, decimal digits only. -/
def Digits (p : Str) : Prop :=
  p ≠ [] ∧ ∀ c ∈ p, '0'.toNat ≤ c.toNat ∧ c.toNat ≤ '9'.toNat

/-- The fetch of a refresh fails for good: a transport error, or a status code other than
200. -/
def FetchFails (w : World) (pf : ProxyFinder) : Prop :=
  (∃ e, w.Get pf.pacURL = .error e) ∨
    (∃ resp, w.Get pf.pacURL = .ok resp ∧ resp.StatusCode ≠ StatusOK)

/-- The refresh fails: the fetch fails, or the script served does not construct. -/
def RefreshFails (w : World) (pf : ProxyFinder) : Prop :=
  FetchFails w pf ∨
    (∃ resp e, w.Get pf.pacURL = .ok resp ∧ (NewPACRunner w.js resp.Body).2 = some e)

/-- The finder after the calls `calls` of `findProxyForRequest`, one after the other. -/
def afterCalls (pf : ProxyFinder) (calls : List (World × Request)) : ProxyFinder :=
  calls.foldl (fun p c => (p.findProxyForRequest c.1 c.2).pf) pf

/-! ## White space, trimming, splitting -/

theorem inRanges_nil (n : Nat) : inRanges [] n = false := rfl

theorem inRanges_cons (lo hi : Nat) (rest : List (Nat × Nat)) (n : Nat) :
    inRanges ((lo, hi) :: rest) n = true ↔ lo ≤ n ∧ (n ≤ hi ∨ inRanges rest n = true) := by
  rw [inRanges]
  split_ifs with h1 h2
  · simp only [Bool.false_eq_true, false_iff]; omega
  · simp only [true_iff]; omega
  · constructor
    · intro h; exact ⟨by omega, Or.inr h⟩
    · rintro ⟨_, h | h⟩
      · omega
      · exact h

theorem inRanges_space (n : Nat) :
    inRanges space n = true ↔
      (9 ≤ n ∧ n ≤ 13) ∨ n = 32 ∨ n = 133 ∨ n = 160 ∨ n = 5760 ∨ (8192 ≤ n ∧ n ≤ 8202) ∨
        n = 8232 ∨ n = 8233 ∨ n = 8239 ∨ n = 8287 ∨ n = 12288 := by
  unfold space
  simp only [inRanges_cons, inRanges_nil, Bool.false_eq_true, or_false]
  omega

theorem isSpace_iff (c : Char) :
    isSpace c = true ↔
      (9 ≤ c.toNat ∧ c.toNat ≤ 13) ∨ c.toNat = 32 ∨ c.toNat = 133 ∨ c.toNat = 160 ∨
        c.toNat = 5760 ∨ (8192 ≤ c.toNat ∧ c.toNat ≤ 8202) ∨
        c.toNat = 8232 ∨ c.toNat = 8233 ∨ c.toNat = 8239 ∨ c.toNat = 8287 ∨
        c.toNat = 12288 := by
  unfold isSpace
  split_ifs with h
  · simp only [Bool.false_eq_true, false_iff]
    omega
  · exact inRanges_space _

theorem unicodeIsSpace_iff (c : Char) :
    unicodeIsSpace c = true ↔
      (9 ≤ c.toNat ∧ c.toNat ≤ 13) ∨ c.toNat = 32 ∨ c.toNat = 133 ∨ c.toNat = 160 ∨
        c.toNat = 5760 ∨ (8192 ≤ c.toNat ∧ c.toNat ≤ 8202) ∨
        c.toNat = 8232 ∨ c.toNat = 8233 ∨ c.toNat = 8239 ∨ c.toNat = 8287 ∨
        c.toNat = 12288 := by
  unfold unicodeIsSpace whiteSpaceAboveLatin1
  generalize c.toNat = n
  simp only [List.any_cons, List.any_nil, Bool.or_false, Bool.or_eq_true, Bool.and_eq_true,
    beq_iff_eq, decide_eq_true_eq]
  split_ifs <;> simp only [Bool.or_eq_true, Bool.and_eq_true,
    beq_iff_eq, decide_eq_true_eq] <;> omega

theorem unicodeIsSpace_eq_isSpace (c : Char) : unicodeIsSpace c = isSpace c := by
  rw [Bool.eq_iff_iff, unicodeIsSpace_iff, isSpace_iff]

theorem dropWhile_append_all (p : Char → Bool) (ws x : Str) (h : ∀ c ∈ ws, p c = true) :
    (ws ++ x).dropWhile p = x.dropWhile p := by
  induction ws with
  | nil => rfl
  | cons c cs ih =>
    have hc : p c = true := h c (List.mem_cons_self _ _)
    simp only [List.cons_append, List.dropWhile_cons, hc, if_true]
    exact ih (fun d hd => h d (List.mem_cons_of_mem _ hd))

theorem dropWhile_append_ne_nil (p : Char → Bool) (a x : Str) (h : a.dropWhile p ≠ []) :
    (a ++ x).dropWhile p = a.dropWhile p ++ x := by
  induction a with
  | nil => exact absurd rfl h
  | cons c cs ih =>
    by_cases hc : p c = true
    · simp only [List.cons_append, List.dropWhile_cons, hc, if_true] at h ⊢
      exact ih h
    · simp [List.dropWhile_cons, hc]

theorem dropWhile_eq_nil_all (p : Char → Bool) (a : Str) (h : a.dropWhile p = []) :
    ∀ c ∈ a, p c = true := by
  induction a with
  | nil => intro c hc; cases hc
  | cons d ds ih =>
    by_cases hd : p d = true
    · simp only [List.dropWhile_cons, hd, if_true] at h
      intro c hc
      rcases List.mem_cons.mp hc with rfl | hc
      · exact hd
      · exact ih h c hc
    · simp [List.dropWhile_cons, hd] at h

theorem TrimSpace_pad (w1 a w2 : Str) (h1 : ∀ c ∈ w1, unicodeIsSpace c = true)
    (h2 : ∀ c ∈ w2, unicodeIsSpace c = true) :
    TrimSpace (w1 ++ a ++ w2) = TrimSpace a := by
  unfold TrimSpace TrimLeftFunc TrimRightFunc
  rw [List.append_assoc, dropWhile_append_all _ _ _ h1]
  by_cases ha : a.dropWhile unicodeIsSpace = []
  · have hall : ∀ c ∈ a ++ w2, unicodeIsSpace c = true := by
      intro c hc
      rcases List.mem_append.mp hc with hc | hc
      · exact dropWhile_eq_nil_all _ _ ha c hc
      · exact h2 c hc
    have h0 : (a ++ w2).dropWhile unicodeIsSpace = [] := by
      have := dropWhile_append_all unicodeIsSpace (a ++ w2) [] hall
      simpa using this
    rw [h0, ha]
  · rw [dropWhile_append_ne_nil _ _ _ ha, List.reverse_append,
      dropWhile_append_all _ _ _ (fun c hc => h2 c (List.mem_reverse.mp hc))]

theorem Split_ne_nil (s : Str) (sep : Char) : Split s sep ≠ [] := by
  induction s with
  | nil => simp [Split]
  | cons c cs ih =>
    unfold Split
    split_ifs
    · simp
    · split <;> simp

theorem Split_headD_no_sep (a : Str) (sep : Char) (h : sep ∉ a) :
    (Split a sep).headD [] = a := by
  induction a with
  | nil => simp [Split]
  | cons c cs ih =>
    have hc : c ≠ sep := fun e => h (e ▸ List.mem_cons_self _ _)
    have hcs : sep ∉ cs := fun e => h (List.mem_cons_of_mem _ e)
    have ih2 := ih hcs
    unfold Split
    rw [if_neg hc]
    split
    · next hnil => exact absurd hnil (Split_ne_nil _ _)
    · next seg rest heq =>
      rw [heq] at ih2
      simpa using ih2

theorem Split_headD_append (a b : Str) (sep : Char) (h : sep ∉ a) :
    (Split (a ++ sep :: b) sep).headD [] = a := by
  induction a with
  | nil => simp [Split]
  | cons c cs ih =>
    have hc : c ≠ sep := fun e => h (e ▸ List.mem_cons_self _ _)
    have hcs : sep ∉ cs := fun e => h (List.mem_cons_of_mem _ e)
    have ih2 := ih hcs
    rw [List.cons_append]
    unfold Split
    rw [if_neg hc]
    split
    · next hnil => exact absurd hnil (Split_ne_nil _ _)
    · next seg rest heq =>
      rw [heq] at ih2
      simpa using ih2

/-! ## Scanning -/

theorem isSpace_newline : isSpace '\n' = true := by decide

theorem isSpace_return : isSpace '\r' = true := by decide

theorem advanceLiteral_append (kw rest : Str) : advanceLiteral kw (kw ++ rest) = .ok rest := by
  induction kw with
  | nil => cases rest <;> rfl
  | cons f fs ih => simp [advanceLiteral, ih]

theorem advanceLiteral_ok (kw t r : Str) (h : advanceLiteral kw t = .ok r) : t = kw ++ r := by
  induction kw generalizing t with
  | nil =>
    cases t <;> simp [advanceLiteral] at h <;> simp [h]
  | cons f fs ih =>
    cases t with
    | nil => simp [advanceLiteral] at h
    | cons c cs =>
      by_cases hfc : f = c
      · simp only [advanceLiteral, hfc, if_true] at h
        simp [hfc, ih cs h]
      · simp [advanceLiteral, hfc] at h

theorem skipBlanks_append (ws : Str) (d : Char) (ds : Str)
    (hws : ∀ c ∈ ws, isSpace c = true ∧ c ≠ '\n') (hd : isSpace d = false) :
    skipBlanks (ws ++ d :: ds) = d :: ds := by
  induction ws with
  | nil => simp [skipBlanks, hd]
  | cons c cs ih =>
    have hc := hws c (List.mem_cons_self _ _)
    simp only [List.cons_append, skipBlanks, hc.1, Bool.true_and, bne_iff_ne, ne_eq, hc.2,
      not_false_eq_true, if_true]
    exact ih (fun x hx => hws x (List.mem_cons_of_mem _ hx))

theorem skipBlanks_split (cs : Str) :
    ∃ ws, cs = ws ++ skipBlanks cs ∧ ∀ c ∈ ws, isSpace c = true := by
  induction cs with
  | nil => exact ⟨[], rfl, fun c hc => by cases hc⟩
  | cons d ds ih =>
    by_cases hd : (isSpace d && d != '\n') = true
    · obtain ⟨ws, h1, h2⟩ := ih
      refine ⟨d :: ws, ?_, ?_⟩
      · simp only [skipBlanks, hd, if_true, List.cons_append]
        rw [← h1]
      · intro c hc
        rcases List.mem_cons.mp hc with rfl | hc
        · simp only [Bool.and_eq_true] at hd
          exact hd.1
        · exact h2 c hc
    · refine ⟨[], ?_, fun c hc => by cases hc⟩
      simp [skipBlanks, hd]

theorem SkipSpace_nonspace (d : Char) (ds : Str) (hd : isSpace d = false) :
    SkipSpace (d :: ds) = .ok (d :: ds) := by
  have h1 : d ≠ '\r' := fun e => by rw [e, isSpace_return] at hd; cases hd
  have h2 : d ≠ '\n' := fun e => by rw [e, isSpace_newline] at hd; cases hd
  simp [SkipSpace, h1, h2, hd]

theorem SkipSpace_ok (x r : Str) (h : SkipSpace x = .ok r) :
    (∃ ws, x = ws ++ r ∧ ∀ c ∈ ws, isSpace c = true) ∧
      (∀ d ds, r = d :: ds → isSpace d = false) := by
  induction x with
  | nil =>
    simp only [SkipSpace, Except.ok.injEq] at h
    subst h
    exact ⟨⟨[], rfl, fun c hc => by cases hc⟩, fun d ds hr => by cases hr⟩
  | cons c cs ih =>
    unfold SkipSpace at h
    split_ifs at h with h1 h2 h3
    · obtain ⟨⟨ws, e, hws⟩, hh⟩ := ih h
      refine ⟨⟨c :: ws, by simp [e], ?_⟩, hh⟩
      intro x hx
      rcases List.mem_cons.mp hx with rfl | hx
      · simp only [Bool.and_eq_true, decide_eq_true_eq] at h1
        rw [h1.1]; exact isSpace_return
      · exact hws x hx
    · simp only [Except.ok.injEq] at h
      subst h
      refine ⟨⟨[], rfl, fun c hc => by cases hc⟩, ?_⟩
      intro d ds hr
      simp only [List.cons.injEq] at hr
      rw [← hr.1]
      simpa using h3
    · obtain ⟨⟨ws, e, hws⟩, hh⟩ := ih h
      refine ⟨⟨c :: ws, by simp [e], ?_⟩, hh⟩
      intro x hx
      rcases List.mem_cons.mp hx with rfl | hx
      · simpa using h3
      · exact hws x hx

theorem takeWhile_token (h rest : Str) (hh : ∀ c ∈ h, isSpace c = false)
    (hr : rest = [] ∨ ∃ c r, rest = c :: r ∧ isSpace c = true) :
    (h ++ rest).takeWhile notSpace = h := by
  induction h with
  | nil =>
    rcases hr with rfl | ⟨c, r, rfl, hc⟩
    · rfl
    · simp [List.takeWhile, notSpace, hc]
  | cons d ds ih =>
    have hd := hh d (List.mem_cons_self _ _)
    have ih2 := ih (fun x hx => hh x (List.mem_cons_of_mem _ hx))
    rw [List.cons_append, List.takeWhile_cons]
    simp [notSpace, hd, ih2]

theorem scanString_token (h rest : Str) (hh : Token h)
    (hr : rest = [] ∨ ∃ c r, rest = c :: r ∧ isSpace c = true) :
    ∃ left, scanString (h ++ rest) = .ok (h, left) := by
  obtain ⟨hne, hall⟩ := hh
  cases h with
  | nil => exact absurd rfl hne
  | cons d ds =>
    have hd := hall d (List.mem_cons_self _ _)
    refine ⟨((d :: ds) ++ rest).dropWhile notSpace, ?_⟩
    simp only [scanString, List.cons_append, SkipSpace_nonspace d (ds ++ rest) hd]
    rw [← List.cons_append, takeWhile_token (d :: ds) rest hall hr]

theorem scanString_ok (x word left : Str) (h : scanString x = .ok (word, left)) :
    ∃ ws, x = ws ++ word ++ left ∧ (∀ c ∈ ws, isSpace c = true) ∧ Token word := by
  unfold scanString at h
  cases h1 : SkipSpace x with
  | error e => rw [h1] at h; cases h
  | ok i1 =>
    rw [h1] at h
    simp only at h
    cases h2 : SkipSpace i1 with
    | error e => rw [h2] at h; cases h
    | ok i2 =>
      rw [h2] at h
      cases i2 with
      | nil => cases h
      | cons c cs =>
        have hc : isSpace c = false := (SkipSpace_ok _ _ h2).2 c cs rfl
        simp only [SkipSpace_nonspace c cs hc, Except.ok.injEq, Prod.mk.injEq] at h
        obtain ⟨ws1, e1, hw1⟩ := (SkipSpace_ok _ _ h1).1
        obtain ⟨ws2, e2, hw2⟩ := (SkipSpace_ok _ _ h2).1
        refine ⟨ws1 ++ ws2, ?_, ?_, ?_, ?_⟩
        · rw [e1, e2, ← h.1, ← h.2, List.append_assoc, List.append_assoc,
            List.takeWhile_append_dropWhile]
        · intro x hx
          rcases List.mem_append.mp hx with hx | hx
          · exact hw1 x hx
          · exact hw2 x hx
        · rw [← h.1]
          simp [List.takeWhile, notSpace, hc]
        · intro x hx
          rw [← h.1] at hx
          have := List.mem_takeWhile_imp hx
          simpa [notSpace] using this

/-- A scan for `kw` followed by blanks and a token succeeds with that token, whether the
input ends there or goes on with white space. -/
theorem Sscanf_token (kw ws h rest host : Str) (hws : Blanks ws) (hh : Token h)
    (hr : rest = [] ∨ ∃ c r, rest = c :: r ∧ isSpace c = true) :
    Sscanf (kw ++ ws ++ h ++ rest) kw host = (1, none, h) := by
  obtain ⟨wne, wall⟩ := hws
  cases ws with
  | nil => exact absurd rfl wne
  | cons c cs =>
    have hc := wall c (List.mem_cons_self _ _)
    obtain ⟨left, hleft⟩ := scanString_token h rest hh hr
    obtain ⟨hne, hall⟩ := hh
    cases h with
    | nil => exact absurd rfl hne
    | cons d ds =>
      have hd := hall d (List.mem_cons_self _ _)
      have hsk : skipBlanks (cs ++ d :: (ds ++ rest)) = d :: (ds ++ rest) :=
        skipBlanks_append cs d (ds ++ rest)
          (fun x hx => wall x (List.mem_cons_of_mem _ hx)) hd
      unfold Sscanf
      rw [List.append_assoc, List.append_assoc, advanceLiteral_append]
      simp only [List.cons_append, advanceSpace, hc.1, Bool.not_true, Bool.false_eq_true,
        if_false, hc.2, hsk]
      rw [List.cons_append] at hleft
      rw [hleft]

/-- A scan either fails, scanning nothing and leaving `host` alone, or it scans one word,
and then the input is the keyword, white space and a token. -/
theorem Sscanf_cases (t kw host : Str) :
    (∃ e, Sscanf t kw host = (0, some e, host)) ∨
      (∃ word, Sscanf t kw host = (1, none, word) ∧ KeywordThenHost kw t) := by
  unfold Sscanf
  cases h1 : advanceLiteral kw t with
  | error e => exact Or.inl ⟨e, rfl⟩
  | ok i1 =>
    have e1 := advanceLiteral_ok _ _ _ h1
    cases i1 with
    | nil =>
      left
      exact ⟨.EOF, by simp [advanceSpace, scanString, SkipSpace]⟩
    | cons c cs =>
      by_cases hc : isSpace c = true
      · by_cases hn : c = '\n'
        · left
          subst hn
          exact ⟨.newlineInInput, by simp [advanceSpace, isSpace_newline]⟩
        · simp only [advanceSpace, hc, Bool.not_true, Bool.false_eq_true, if_false, hn]
          cases h3 : scanString (skipBlanks cs) with
          | error e => exact Or.inl ⟨e, rfl⟩
          | ok r =>
            obtain ⟨word, left⟩ := r
            right
            refine ⟨word, rfl, ?_⟩
            obtain ⟨wsb, eb, hb⟩ := skipBlanks_split cs
            obtain ⟨ws, e3, hw, htok⟩ := scanString_ok _ _ _ h3
            refine ⟨c :: (wsb ++ ws), word, left, ?_, by simp, ?_, htok.1, htok.2⟩
            · rw [e1, eb, e3]
              simp [List.append_assoc]
            · intro x hx
              rcases List.mem_cons.mp hx with rfl | hx
              · exact hc
              · rcases List.mem_append.mp hx with hx | hx
                · exact hb x hx
                · exact hw x hx
      · left
        exact ⟨.expectedSpace, by simp [advanceSpace, hc]⟩

theorem Sscanf_other_keyword (kw kw2 rest host : Str) (c d : Char) (k k2 : Str)
    (hk : kw = c :: k) (hk2 : kw2 = d :: k2) (hcd : d ≠ c) :
    Sscanf (kw ++ rest) kw2 host = (0, some .inputDoesNotMatchFormat, host) := by
  subst hk hk2
  simp [Sscanf, advanceLiteral, hcd]

/-! ## Host and port -/

theorem LastIndexByte_none (s : Str) (c : Char) (h : c ∉ s) : LastIndexByte s c = none := by
  induction s with
  | nil => rfl
  | cons x xs ih =>
    have hx : x ≠ c := fun e => h (e ▸ List.mem_cons_self _ _)
    simp [LastIndexByte, ih (fun e => h (List.mem_cons_of_mem _ e)), hx]

theorem LastIndexByte_append (a p : Str) (c : Char) (h : c ∉ p) :
    LastIndexByte (a ++ c :: p) c = some a.length := by
  induction a with
  | nil => simp [LastIndexByte, LastIndexByte_none p c h]
  | cons x xs ih => simp [LastIndexByte, ih]

theorem Digits_no_colon (p : Str) (hp : Digits p) : ':' ∉ p := by
  intro hmem
  have := hp.2 _ hmem
  revert this
  decide

theorem validOptionalPort_digits (p : Str) (hp : Digits p) :
    validOptionalPort (':' :: p) = true := by
  simp only [validOptionalPort, beq_self_eq_true, Bool.true_and, List.all_eq_true,
    Bool.and_eq_true, decide_eq_true_eq]
  exact fun c hc => hp.2 c hc

theorem Port_no_colon (h : Str) (hc : ':' ∉ h) : URL.Port { Host := h } = [] := by
  simp only [URL.Port, splitHostPort, LastIndexByte_none h ':' hc]
  split_ifs <;> rfl

theorem Port_host_port (a p : Str) (hp : Digits p) :
    URL.Port { Host := a ++ ':' :: p } = p := by
  simp only [URL.Port, splitHostPort, LastIndexByte_append a p ':' (Digits_no_colon p hp),
    List.drop_left, validOptionalPort_digits p hp, if_true]
  have : List.drop (a.length + 1) (a ++ ':' :: p) = p := by
    rw [List.drop_append]
    rfl
  split_ifs <;> simp [this]

theorem JoinHostPort_no_colon (h port : Str) (hc : ':' ∉ h) :
    JoinHostPort h port = h ++ ':' :: port := by
  simp [JoinHostPort, hc]

/-! ## The parser of script results -/

/-- What `parseResult` returns, in terms of the trimmed first entry and of the results
`p` and `k` of the two scans. -/
theorem parseResult_ret (id : Nat) (s : Str) (p k : Nat × Option ScanError × Str)
    (hp : Sscanf (firstEntry s) ['P', 'R', 'O', 'X', 'Y'] [] = p)
    (hk : Sscanf (firstEntry s) ['S', 'O', 'C', 'K', 'S'] p.2.2 = k) :
    (parseResult id s).1 =
      if firstEntry s = ['D', 'I', 'R', 'E', 'C', 'T'] then .values none none
      else if p.2.1 = none ∧ p.1 = 1 then
        .values (some
          (if URL.Port { Host := p.2.2 } = [] then { Host := JoinHostPort p.2.2 ['8', '0'] }
            else { Host := p.2.2 })) none
      else if k.2.1 = none ∧ k.1 = 1 then .values none none
      else .values none (k.2.1.map Error.scan) := by
  subst hp hk
  unfold parseResult firstEntry
  cases hs : Split s ';' with
  | nil => exact absurd hs (Split_ne_nil _ _)
  | cons ss0 rest =>
    simp only [List.headD_cons]
    split_ifs <;> simp_all

/-- An entry `PROXY`, blanks, token (with nothing or white space after it) resolves to the
upstream named by the token, port 80 added when the token has no port. -/
theorem parseResult_proxy (id : Nat) (s ws h rest : Str) (hws : Blanks ws) (hh : Token h)
    (hr : rest = [] ∨ ∃ c r, rest = c :: r ∧ isSpace c = true)
    (ht : firstEntry s = ['P', 'R', 'O', 'X', 'Y'] ++ ws ++ h ++ rest) :
    (parseResult id s).1 =
      .values (some (if URL.Port { Host := h } = [] then { Host := JoinHostPort h ['8', '0'] }
        else { Host := h })) none := by
  have hsc := Sscanf_token ['P', 'R', 'O', 'X', 'Y'] ws h rest [] hws hh hr
  have hne : firstEntry s ≠ ['D', 'I', 'R', 'E', 'C', 'T'] := by
    rw [ht]
    simp
  rw [← ht] at hsc
  rw [parseResult_ret id s _ _ rfl rfl, if_neg hne, hsc]
  simp

/-- An entry `SOCKS`, blanks, token (with nothing or white space after it) resolves to a
direct connection. -/
theorem parseResult_socks (id : Nat) (s ws h rest : Str) (hws : Blanks ws) (hh : Token h)
    (hr : rest = [] ∨ ∃ c r, rest = c :: r ∧ isSpace c = true)
    (ht : firstEntry s = ['S', 'O', 'C', 'K', 'S'] ++ ws ++ h ++ rest) :
    (parseResult id s).1 = .values none none := by
  have hsc := Sscanf_token ['S', 'O', 'C', 'K', 'S'] ws h rest [] hws hh hr
  have hp : Sscanf (['S', 'O', 'C', 'K', 'S'] ++ ws ++ h ++ rest) ['P', 'R', 'O', 'X', 'Y'] [] =
      (0, some .inputDoesNotMatchFormat, []) := by
    rw [List.append_assoc, List.append_assoc]
    exact Sscanf_other_keyword _ _ _ _ 'S' 'P' _ _ rfl rfl (by decide)
  have hne : firstEntry s ≠ ['D', 'I', 'R', 'E', 'C', 'T'] := by
    rw [ht]
    simp
  rw [← ht] at hsc hp
  rw [parseResult_ret id s _ _ rfl rfl, if_neg hne, hp, hsc]
  simp

/-- An entry that is not `DIRECT` and does not start with a keyword, white space and a
token is a parse error. -/
theorem parseResult_error (id : Nat) (s : Str)
    (hd : firstEntry s ≠ ['D', 'I', 'R', 'E', 'C', 'T'])
    (hp : ¬ KeywordThenHost ['P', 'R', 'O', 'X', 'Y'] (firstEntry s))
    (hk : ¬ KeywordThenHost ['S', 'O', 'C', 'K', 'S'] (firstEntry s)) :
    ∃ e, (parseResult id s).1 = .values none (some (.scan e)) := by
  rcases Sscanf_cases (firstEntry s) ['P', 'R', 'O', 'X', 'Y'] [] with ⟨e1, h1⟩ | ⟨_, _, h1⟩
  · rcases Sscanf_cases (firstEntry s) ['S', 'O', 'C', 'K', 'S'] [] with ⟨e2, h2⟩ | ⟨_, _, h2⟩
    · refine ⟨e2, ?_⟩
      rw [parseResult_ret id s _ _ rfl rfl, if_neg hd, h1, h2]
      simp
    · exact absurd h2 hk
  · exact absurd h1 hp

theorem parseResult_congr (id1 id2 : Nat) (s1 s2 : Str) (h : firstEntry s1 = firstEntry s2) :
    (parseResult id1 s1).1 = (parseResult id2 s2).1 := by
  rw [parseResult_ret id1 s1 _ _ rfl rfl, parseResult_ret id2 s2 _ _ rfl rfl, h]

theorem parseResult_no_panic (id : Nat) (s : Str) : (parseResult id s).1 ≠ .panic := by
  rw [parseResult_ret id s _ _ rfl rfl]
  split_ifs <;> simp

theorem isSpace_not_semicolon (c : Char) (h : isSpace c = true) : c ≠ ';' := by
  rintro rfl
  revert h
  decide

theorem firstEntry_pad (w1 a w2 b : Str) (ha : ';' ∉ a) (h1 : ∀ c ∈ w1, isSpace c = true)
    (h2 : ∀ c ∈ w2, isSpace c = true) :
    firstEntry (w1 ++ a ++ w2 ++ ';' :: b) = firstEntry a := by
  have hno : ';' ∉ w1 ++ a ++ w2 := by
    intro hm
    rcases List.mem_append.mp hm with hm | hm
    · rcases List.mem_append.mp hm with hm | hm
      · exact isSpace_not_semicolon _ (h1 _ hm) rfl
      · exact ha hm
    · exact isSpace_not_semicolon _ (h2 _ hm) rfl
  unfold firstEntry
  rw [Split_headD_append _ _ _ hno, Split_headD_no_sep _ _ ha]
  exact TrimSpace_pad w1 a w2 (fun c hc => by rw [unicodeIsSpace_eq_isSpace]; exact h1 c hc)
    (fun c hc => by rw [unicodeIsSpace_eq_isSpace]; exact h2 c hc)

/-! ## The resolver -/

theorem findProxyForRequest_fst (w : World) (pf : ProxyFinder) :
    (if w.AddrsChanged then pf.downloadPACFile w else (pf, [])).1 = pf.afterCheck w := by
  unfold ProxyFinder.afterCheck
  split_ifs <;> rfl

/-- When the script runs and returns `s`, what `findProxyForRequest` returns is what the
parser makes of `s`. -/
theorem findProxyForRequest_script (w : World) (pf : ProxyFinder) (req : Request) (s : Str)
    (h : ScriptResult w pf req s) :
    (pf.findProxyForRequest w req).ret = (parseResult req.id s).1 := by
  obtain ⟨pr, hon, hr, hs⟩ := h
  have hfst := findProxyForRequest_fst w pf
  unfold ProxyFinder.findProxyForRequest
  generalize (if w.AddrsChanged then pf.downloadPACFile w else (pf, [])) = q at hfst ⊢
  obtain ⟨pf1, log⟩ := q
  simp only at hfst
  subst hfst
  simp only [hon, hr, Bool.not_true, Bool.false_eq_true, if_false]
  generalize pr.FindProxyForURL req.URL = r at hs ⊢
  obtain ⟨pr2, u, s2, err⟩ := r
  simp only [Prod.mk.injEq] at hs
  obtain ⟨rfl, rfl⟩ := hs
  rfl

/-- Offline and with a quiet network, `findProxyForRequest` answers Direct and touches
nothing. -/
theorem findProxyForRequest_offline (w : World) (pf : ProxyFinder) (req : Request)
    (hq : w.AddrsChanged = false) (hoff : pf.online = false) :
    pf.findProxyForRequest w req =
      { pf := pf, req := req, ret := .values none none, log := [], invoked := [] } := by
  simp [ProxyFinder.findProxyForRequest, hq, hoff]

theorem afterCalls_offline (pf : ProxyFinder) (calls : List (World × Request))
    (hq : ∀ c ∈ calls, c.1.AddrsChanged = false) (hoff : pf.online = false) :
    afterCalls pf calls = pf := by
  induction calls with
  | nil => rfl
  | cons c cs ih =>
    have h1 := findProxyForRequest_offline c.1 pf c.2 (hq c (List.mem_cons_self _ _)) hoff
    unfold afterCalls
    simp only [List.foldl_cons, h1]
    exact ih (fun d hd => hq d (List.mem_cons_of_mem _ hd))

theorem NewPACRunner_cases (js : JS) (r : Str) :
    (∃ e, NewPACRunner js r = (none, some e)) ∨ (∃ pr, NewPACRunner js r = (some pr, none)) := by
  unfold NewPACRunner
  dsimp only
  generalize js.Set "isPlainHostName".toList = a
  generalize js.Set "dnsDomainIs".toList = b
  generalize js.Set "shExpMatch".toList = c
  cases a <;> cases b <;> cases c <;> cases js.Run r <;> simp

/-- After a refresh the finder is never online without a runner. -/
theorem downloadPACFile_engine (w : World) (pf : ProxyFinder) :
    ((pf.downloadPACFile w).1.online && (pf.downloadPACFile w).1.pacRunner.isNone) = false := by
  unfold ProxyFinder.downloadPACFile
  cases w.Get pf.pacURL with
  | error e => rfl
  | ok resp =>
    simp only
    split_ifs with hst
    · rfl
    · rcases NewPACRunner_cases w.js resp.Body with ⟨e, h⟩ | ⟨pr, h⟩ <;> rw [h] <;> rfl

theorem downloadPACFile_fetch_fails (w : World) (pf : ProxyFinder) (h : FetchFails w pf) :
    (pf.downloadPACFile w).1 = { pf with online := false } := by
  unfold ProxyFinder.downloadPACFile
  rcases h with ⟨e, he⟩ | ⟨resp, he, hst⟩
  · rw [he]
  · rw [he]
    simp [hst]

theorem downloadPACFile_fails (w : World) (pf : ProxyFinder) (h : RefreshFails w pf) :
    (pf.downloadPACFile w).1.online = false := by
  rcases h with h | ⟨resp, e, hget, hnew⟩
  · rw [downloadPACFile_fetch_fails w pf h]
  · unfold ProxyFinder.downloadPACFile
    rw [hget]
    simp only
    split_ifs with hst
    · rfl
    · rcases NewPACRunner_cases w.js resp.Body with ⟨e2, h2⟩ | ⟨pr, h2⟩
      · rw [h2]
      · rw [h2] at hnew
        cases hnew

theorem findProxyForRequest_engine (w : World) (pf : ProxyFinder) (req : Request)
    (hinv : (pf.online && pf.pacRunner.isNone) = false) :
    ((pf.findProxyForRequest w req).pf.online &&
        (pf.findProxyForRequest w req).pf.pacRunner.isNone) = false ∧
      (pf.findProxyForRequest w req).ret ≠ .panic := by
  have hfst := findProxyForRequest_fst w pf
  have hinv1 : ((pf.afterCheck w).online && (pf.afterCheck w).pacRunner.isNone) = false := by
    unfold ProxyFinder.afterCheck
    split_ifs
    · exact downloadPACFile_engine w pf
    · exact hinv
  unfold ProxyFinder.findProxyForRequest
  generalize (if w.AddrsChanged then pf.downloadPACFile w else (pf, [])) = q at hfst ⊢
  obtain ⟨pf1, log⟩ := q
  simp only at hfst
  subst hfst
  simp only
  by_cases hon : (pf.afterCheck w).online = true
  · simp only [hon, Bool.not_true, Bool.false_eq_true, if_false]
    cases hr : (pf.afterCheck w).pacRunner with
    | none => simp [hon, hr] at hinv1
    | some pr =>
      simp only
      generalize pr.FindProxyForURL req.URL = r
      obtain ⟨pr2, u, s2, err⟩ := r
      cases err with
      | some e => simp
      | none =>
        simp only [Option.isNone_some, Bool.and_false, true_and]
        exact parseResult_no_panic _ _
  · simp only [Bool.not_eq_true] at hon
    simp [hon]

theorem runFrom_engine (w0 : World) (pacURL : Str) (ops : List Op) :
    ((runFrom w0 pacURL ops).online && (runFrom w0 pacURL ops).pacRunner.isNone) = false := by
  unfold runFrom newProxyFinder
  have h0 := downloadPACFile_engine w0 { pacURL := pacURL }
  generalize (ProxyFinder.downloadPACFile w0 { pacURL := pacURL }).1 = pf at h0 ⊢
  induction ops generalizing pf with
  | nil => exact h0
  | cons op ops ih =>
    rw [List.foldl_cons]
    apply ih
    cases op with
    | refresh w => exact downloadPACFile_engine w pf
    | resolve w req => exact (findProxyForRequest_engine w pf req h0).1

/-- The online finders of the examples are states the program reaches: construction in a
world that serves the script yields them. -/
theorem onlineFinder_constructed (s : Str) :
    (newProxyFinder (worldServing s) "http://pac/".toList).1 = onlineFinder s := rfl

/-! ## Offline behaviour and the engine invariant -/

/-- Claim C1: after a refresh that fails (transport error, status code other than 200, or
a script that does not construct) the finder is offline, and every later call of
`findProxyForRequest` in which no network change is reported returns a nil proxy and a
nil error, calls the script not at all and leaves finder and request as they were. -/
theorem refresh_failure_resolves_direct (w : World) (pf : ProxyFinder)
    (hfail : RefreshFails w pf) :
    (pf.downloadPACFile w).1.online = false ∧
      ∀ (earlier : List (World × Request)) (w2 : World) (req : Request),
        (∀ c ∈ earlier, c.1.AddrsChanged = false) → w2.AddrsChanged = false →
          ((afterCalls (pf.downloadPACFile w).1 earlier).findProxyForRequest w2 req).ret =
              .values none none ∧
            ((afterCalls (pf.downloadPACFile w).1 earlier).findProxyForRequest w2 req).invoked
              = [] ∧
            ((afterCalls (pf.downloadPACFile w).1 earlier).findProxyForRequest w2 req).pf =
              (pf.downloadPACFile w).1 ∧
            ((afterCalls (pf.downloadPACFile w).1 earlier).findProxyForRequest w2 req).req =
              req := by
  have hoff := downloadPACFile_fails w pf hfail
  refine ⟨hoff, ?_⟩
  intro earlier w2 req hq hq2
  rw [afterCalls_offline _ earlier hq hoff, findProxyForRequest_offline w2 _ req hq2 hoff]
  exact ⟨rfl, rfl, rfl, rfl⟩

/-- Witness for C1: the PAC server answers 404 to a finder that was online; two requests
later, with a quiet network, the answer is still Direct and the script was not called. -/
theorem refresh_failure_resolves_direct_witness :
    RefreshFails world404 (onlineFinder "PROXY 10.0.0.1".toList) ∧
      (((onlineFinder "PROXY 10.0.0.1".toList).downloadPACFile world404).1.online = false ∧
        ((afterCalls ((onlineFinder "PROXY 10.0.0.1".toList).downloadPACFile world404).1
            [(world404, getRequest { Scheme := "http".toList, Host := "a.example".toList })]
          ).findProxyForRequest world404
            (getRequest { Scheme := "https".toList, Host := "b.example".toList })).ret =
          .values none none ∧
        ((afterCalls ((onlineFinder "PROXY 10.0.0.1".toList).downloadPACFile world404).1
            [(world404, getRequest { Scheme := "http".toList, Host := "a.example".toList })]
          ).findProxyForRequest world404
            (getRequest { Scheme := "https".toList, Host := "b.example".toList })).invoked =
          []) := by
  have hf : RefreshFails world404 (onlineFinder "PROXY 10.0.0.1".toList) :=
    Or.inl (Or.inr ⟨_, rfl, by decide⟩)
  have h := refresh_failure_resolves_direct world404 (onlineFinder "PROXY 10.0.0.1".toList) hf
  have h2 := h.2 [(world404, getRequest { Scheme := "http".toList, Host := "a.example".toList })]
    world404 (getRequest { Scheme := "https".toList, Host := "b.example".toList })
    (by intro c hc; rw [List.mem_singleton.mp hc]; rfl) rfl
  exact ⟨hf, h.1, h2.1, h2.2.1⟩

/-- Claim C2: in every state reached from `newProxyFinder` through any sequence of
refreshes and `findProxyForRequest` calls, whatever the fetches return, the finder is not
online with a nil runner, and a further `findProxyForRequest` does not panic on a nil
runner. -/
theorem online_implies_engine (w0 : World) (pacURL : Str) (ops : List Op) (w : World)
    (req : Request) :
    ((runFrom w0 pacURL ops).online && (runFrom w0 pacURL ops).pacRunner.isNone) = false ∧
      ((runFrom w0 pacURL ops).findProxyForRequest w req).ret ≠ .panic :=
  ⟨runFrom_engine w0 pacURL ops,
    (findProxyForRequest_engine w _ req (runFrom_engine w0 pacURL ops)).2⟩

/-- Counterexample to C9 as stated: an online finder whose PAC server then answers 404 is
offline after the refresh and still holds its runner. -/
theorem failed_fetch_keeps_engine :
    FetchFails world404 (onlineFinder "DIRECT".toList) ∧
      ((onlineFinder "DIRECT".toList).downloadPACFile world404).1.online = false ∧
      ((onlineFinder "DIRECT".toList).downloadPACFile world404).1.pacRunner.isSome = true :=
  ⟨Or.inr ⟨_, rfl, by decide⟩, rfl, rfl⟩

/-- Claim C9, amended: after a refresh whose fetch ends in a transport error or in a
status code other than 200, the finder is offline and otherwise unchanged, its runner
included; while the network stays quiet, `findProxyForRequest` returns Direct, does not
call the script and leaves that state as it is. -/
theorem failed_fetch_offline_engine_idle (w : World) (pf : ProxyFinder)
    (hfail : FetchFails w pf) (w2 : World) (req : Request) (hq : w2.AddrsChanged = false) :
    (pf.downloadPACFile w).1 = { pf with online := false } ∧
      ((pf.downloadPACFile w).1.findProxyForRequest w2 req).ret = .values none none ∧
      ((pf.downloadPACFile w).1.findProxyForRequest w2 req).invoked = [] ∧
      ((pf.downloadPACFile w).1.findProxyForRequest w2 req).pf = { pf with online := false } := by
  have h := downloadPACFile_fetch_fails w pf hfail
  rw [h, findProxyForRequest_offline w2 _ req hq rfl]
  exact ⟨rfl, rfl, rfl, rfl⟩

/-- Witness for the amended C9: a 404 answer to an online finder. -/
theorem failed_fetch_offline_engine_idle_witness :
    FetchFails world404 (onlineFinder "DIRECT".toList) ∧ world404.AddrsChanged = false ∧
      (((onlineFinder "DIRECT".toList).downloadPACFile world404).1 =
          { onlineFinder "DIRECT".toList with online := false } ∧
        (((onlineFinder "DIRECT".toList).downloadPACFile world404).1.findProxyForRequest
          world404 (getRequest { Scheme := "http".toList, Host := "a.example".toList })).ret =
          .values none none ∧
        (((onlineFinder "DIRECT".toList).downloadPACFile world404).1.findProxyForRequest
          world404 (getRequest { Scheme := "http".toList, Host := "a.example".toList })).invoked
          = [] ∧
        (((onlineFinder "DIRECT".toList).downloadPACFile world404).1.findProxyForRequest
          world404 (getRequest { Scheme := "http".toList, Host := "a.example".toList })).pf =
          { onlineFinder "DIRECT".toList with online := false }) :=
  ⟨Or.inr ⟨_, rfl, by decide⟩, rfl,
    failed_fetch_offline_engine_idle world404 (onlineFinder "DIRECT".toList)
      (Or.inr ⟨_, rfl, by decide⟩) world404
      (getRequest { Scheme := "http".toList, Host := "a.example".toList }) rfl⟩

/-! ## Directives -/

/-- Claim C3: when the trimmed first entry of the script result is `PROXY`, blanks and a
single token `h` free of white space, `findProxyForRequest` returns an upstream and a nil
error; the upstream is `h:80` when `h` has no colon and `h` itself when `h` is a host, a
colon and a port of decimal digits. -/
theorem proxy_directive_upstream (w : World) (pf : ProxyFinder) (req : Request)
    (s ws h : Str) (hs : ScriptResult w pf req s) (hws : Blanks ws) (hh : Token h)
    (ht : firstEntry s = ['P', 'R', 'O', 'X', 'Y'] ++ ws ++ h) :
    ∃ hostport, (pf.findProxyForRequest w req).ret = .values (some { Host := hostport }) none ∧
      (':' ∉ h → hostport = h ++ [':', '8', '0']) ∧
      (∀ a p, h = a ++ ':' :: p → Digits p → hostport = h) := by
  have hp := parseResult_proxy req.id s ws h [] hws hh (Or.inl rfl) (by simpa using ht)
  rw [findProxyForRequest_script w pf req s hs, hp]
  by_cases hport : URL.Port { Host := h } = []
  · refine ⟨JoinHostPort h ['8', '0'], by rw [if_pos hport], ?_, ?_⟩
    · intro hc
      exact JoinHostPort_no_colon h _ hc
    · intro a p e hd
      rw [e, Port_host_port a p hd] at hport
      exact absurd hport hd.1
  · refine ⟨h, by rw [if_neg hport], ?_, fun _ _ _ _ => rfl⟩
    intro hc
    exact absurd (Port_no_colon h hc) hport

/-- Witness for C3: the script answers `PROXY 10.0.0.1`, and the upstream is
`10.0.0.1:80`; it answers `PROXY 10.0.0.1:8080`, and the upstream is `10.0.0.1:8080`. -/
theorem proxy_directive_upstream_witness :
    (ScriptResult world404 (onlineFinder "PROXY 10.0.0.1".toList)
        (getRequest (urlOf "http" "a.example" "/" "" "")) "PROXY 10.0.0.1".toList ∧
      Blanks [' '] ∧ Token "10.0.0.1".toList ∧
      firstEntry "PROXY 10.0.0.1".toList =
        ['P', 'R', 'O', 'X', 'Y'] ++ [' '] ++ "10.0.0.1".toList ∧
      ((onlineFinder "PROXY 10.0.0.1".toList).findProxyForRequest world404
          (getRequest (urlOf "http" "a.example" "/" "" ""))).ret =
        .values (some { Host := "10.0.0.1:80".toList }) none) ∧
    (ScriptResult world404 (onlineFinder "PROXY 10.0.0.1:8080".toList)
        (getRequest (urlOf "http" "a.example" "/" "" "")) "PROXY 10.0.0.1:8080".toList ∧
      Token "10.0.0.1:8080".toList ∧ Digits "8080".toList ∧
      firstEntry "PROXY 10.0.0.1:8080".toList =
        ['P', 'R', 'O', 'X', 'Y'] ++ [' '] ++ "10.0.0.1:8080".toList ∧
      ((onlineFinder "PROXY 10.0.0.1:8080".toList).findProxyForRequest world404
          (getRequest (urlOf "http" "a.example" "/" "" ""))).ret =
        .values (some { Host := "10.0.0.1:8080".toList }) none) := by
  have hb : Blanks [' '] := by unfold Blanks; decide
  have ht1 : Token "10.0.0.1".toList := by unfold Token; decide
  have ht2 : Token "10.0.0.1:8080".toList := by unfold Token; decide
  have hd : Digits "8080".toList := by unfold Digits; decide
  have hs1 : ScriptResult world404 (onlineFinder "PROXY 10.0.0.1".toList)
      (getRequest (urlOf "http" "a.example" "/" "" "")) "PROXY 10.0.0.1".toList :=
    ⟨constRunner "PROXY 10.0.0.1".toList, rfl, rfl, rfl⟩
  have hs2 : ScriptResult world404 (onlineFinder "PROXY 10.0.0.1:8080".toList)
      (getRequest (urlOf "http" "a.example" "/" "" "")) "PROXY 10.0.0.1:8080".toList :=
    ⟨constRunner "PROXY 10.0.0.1:8080".toList, rfl, rfl, rfl⟩
  obtain ⟨hp1, hret1, hno1, _⟩ := proxy_directive_upstream world404 _ _
    "PROXY 10.0.0.1".toList [' '] "10.0.0.1".toList hs1 hb ht1 (by decide)
  obtain ⟨hp2, hret2, _, hport2⟩ := proxy_directive_upstream world404 _ _
    "PROXY 10.0.0.1:8080".toList [' '] "10.0.0.1:8080".toList hs2 hb ht2 (by decide)
  have e1 : hp1 = "10.0.0.1:80".toList := hno1 (by decide)
  have e2 : hp2 = "10.0.0.1:8080".toList := hport2 "10.0.0.1".toList "8080".toList rfl hd
  subst e1 e2
  exact ⟨⟨hs1, hb, ht1, by decide, hret1⟩, ⟨hs2, ht2, hd, by decide, hret2⟩⟩

/-- Claim C4: when the trimmed first entry of the script result is empty, or is neither
`DIRECT` nor a keyword `PROXY` or `SOCKS` followed by white space and a host token,
`findProxyForRequest` returns a nil proxy with a scan error, never the pair of nils that
means Direct. -/
theorem unrecognised_entry_parse_error (w : World) (pf : ProxyFinder) (req : Request)
    (s : Str) (hs : ScriptResult w pf req s)
    (ht : firstEntry s = [] ∨
      (firstEntry s ≠ ['D', 'I', 'R', 'E', 'C', 'T'] ∧
        ¬ KeywordThenHost ['P', 'R', 'O', 'X', 'Y'] (firstEntry s) ∧
        ¬ KeywordThenHost ['S', 'O', 'C', 'K', 'S'] (firstEntry s))) :
    (∃ e, (pf.findProxyForRequest w req).ret = .values none (some (.scan e))) ∧
      (pf.findProxyForRequest w req).ret ≠ .values none none := by
  have hcond : firstEntry s ≠ ['D', 'I', 'R', 'E', 'C', 'T'] ∧
      ¬ KeywordThenHost ['P', 'R', 'O', 'X', 'Y'] (firstEntry s) ∧
      ¬ KeywordThenHost ['S', 'O', 'C', 'K', 'S'] (firstEntry s) := by
    rcases ht with h0 | h
    · rw [h0]
      refine ⟨by simp, ?_, ?_⟩ <;>
      · rintro ⟨ws, tok, rest, e, _⟩
        simp at e
    · exact h
  obtain ⟨e, he⟩ := parseResult_error req.id s hcond.1 hcond.2.1 hcond.2.2
  rw [findProxyForRequest_script w pf req s hs, he]
  exact ⟨⟨e, rfl⟩, by simp⟩

/-- Witness for C4: the script answers `BOGUS`. -/
theorem unrecognised_entry_parse_error_witness :
    ScriptResult world404 (onlineFinder "BOGUS".toList)
        (getRequest { Scheme := "http".toList, Host := "a.example".toList }) "BOGUS".toList ∧
      (firstEntry "BOGUS".toList = [] ∨
        (firstEntry "BOGUS".toList ≠ ['D', 'I', 'R', 'E', 'C', 'T'] ∧
          ¬ KeywordThenHost ['P', 'R', 'O', 'X', 'Y'] (firstEntry "BOGUS".toList) ∧
          ¬ KeywordThenHost ['S', 'O', 'C', 'K', 'S'] (firstEntry "BOGUS".toList))) ∧
      ((∃ e, ((onlineFinder "BOGUS".toList).findProxyForRequest world404
          (getRequest { Scheme := "http".toList, Host := "a.example".toList })).ret =
            .values none (some (.scan e))) ∧
        ((onlineFinder "BOGUS".toList).findProxyForRequest world404
          (getRequest { Scheme := "http".toList, Host := "a.example".toList })).ret ≠
            .values none none) := by
  have hfe : firstEntry "BOGUS".toList = ['B', 'O', 'G', 'U', 'S'] := by decide
  have hcond : firstEntry "BOGUS".toList = [] ∨
      (firstEntry "BOGUS".toList ≠ ['D', 'I', 'R', 'E', 'C', 'T'] ∧
        ¬ KeywordThenHost ['P', 'R', 'O', 'X', 'Y'] (firstEntry "BOGUS".toList) ∧
        ¬ KeywordThenHost ['S', 'O', 'C', 'K', 'S'] (firstEntry "BOGUS".toList)) := by
    right
    rw [hfe]
    refine ⟨by decide, ?_, ?_⟩ <;>
    · rintro ⟨ws, tok, rest, e, _⟩
      simp at e
  exact ⟨⟨constRunner "BOGUS".toList, rfl, rfl, rfl⟩, hcond,
    unrecognised_entry_parse_error world404 (onlineFinder "BOGUS".toList)
      (getRequest { Scheme := "http".toList, Host := "a.example".toList }) "BOGUS".toList
      ⟨constRunner "BOGUS".toList, rfl, rfl, rfl⟩ hcond⟩

/-- Counterexample to C5 as stated: for the script result `PROXY a b`, whose trimmed first
entry is the keyword followed by two tokens, `findProxyForRequest` returns the upstream
`a:80` with a nil error, not a parse error. -/
theorem extra_token_no_parse_error :
    firstEntry "PROXY a b".toList = ['P', 'R', 'O', 'X', 'Y'] ++ [' '] ++ ['a'] ++ [' '] ++ ['b'] ∧
      ((onlineFinder "PROXY a b".toList).findProxyForRequest world404
        (getRequest { Scheme := "http".toList, Host := "a.example".toList })).ret =
          .values (some { Host := "a:80".toList }) none := by
  decide

/-- Claim C5, amended: when the trimmed first entry is the keyword `PROXY` or `SOCKS`,
blanks, a token `h` and then more text after white space, the text after `h` is ignored:
for `PROXY` the result is the upstream named by `h` (port 80 added when `h` has no port)
with a nil error, for `SOCKS` it is Direct with a nil error. -/
theorem extra_tokens_ignored (w : World) (pf : ProxyFinder) (req : Request)
    (s kw ws h : Str) (c : Char) (rest : Str) (hs : ScriptResult w pf req s)
    (hkw : kw = ['P', 'R', 'O', 'X', 'Y'] ∨ kw = ['S', 'O', 'C', 'K', 'S'])
    (hws : Blanks ws) (hh : Token h) (hc : isSpace c = true)
    (ht : firstEntry s = kw ++ ws ++ h ++ c :: rest) :
    (pf.findProxyForRequest w req).ret =
      if kw = ['P', 'R', 'O', 'X', 'Y'] then
        .values (some (if URL.Port { Host := h } = [] then
          { Host := JoinHostPort h ['8', '0'] } else { Host := h })) none
      else .values none none := by
  rw [findProxyForRequest_script w pf req s hs]
  rcases hkw with rfl | rfl
  · rw [if_pos rfl]
    exact parseResult_proxy req.id s ws h (c :: rest) hws hh (Or.inr ⟨c, rest, rfl, hc⟩) ht
  · rw [if_neg (by decide)]
    exact parseResult_socks req.id s ws h (c :: rest) hws hh (Or.inr ⟨c, rest, rfl, hc⟩) ht

/-- Witness for the amended C5: the script answers `PROXY a b`, and the upstream is
`a:80`. -/
theorem extra_tokens_ignored_witness :
    ScriptResult world404 (onlineFinder "PROXY a b".toList)
        (getRequest (urlOf "http" "a.example" "/" "" "")) "PROXY a b".toList ∧
      Blanks [' '] ∧ Token ['a'] ∧ isSpace ' ' = true ∧
      firstEntry "PROXY a b".toList = ['P', 'R', 'O', 'X', 'Y'] ++ [' '] ++ ['a'] ++ ' ' :: ['b'] ∧
      ((onlineFinder "PROXY a b".toList).findProxyForRequest world404
          (getRequest (urlOf "http" "a.example" "/" "" ""))).ret =
        .values (some { Host := "a:80".toList }) none := by
  have hb : Blanks [' '] := by unfold Blanks; decide
  have ht : Token ['a'] := by unfold Token; decide
  have hs : ScriptResult world404 (onlineFinder "PROXY a b".toList)
      (getRequest (urlOf "http" "a.example" "/" "" "")) "PROXY a b".toList :=
    ⟨constRunner "PROXY a b".toList, rfl, rfl, rfl⟩
  have h := extra_tokens_ignored world404 _ _ "PROXY a b".toList ['P', 'R', 'O', 'X', 'Y']
    [' '] ['a'] ' ' ['b'] hs (Or.inl rfl) hb ht (by decide) (by decide)
  refine ⟨hs, hb, ht, by decide, by decide, ?_⟩
  rw [h]
  decide

/-- Claim C6: first entry wins.  For `a` without a semicolon, white space `w1` and `w2`
and any `b`, a call whose script returns `w1 ++ a ++ w2 ++ ";" ++ b` and a call whose
script returns `a` alone return the same proxy and the same error. -/
theorem first_entry_wins (w : World) (pf : ProxyFinder) (req : Request) (w' : World)
    (pf' : ProxyFinder) (req' : Request) (w1 a w2 b : Str) (ha : ';' ∉ a)
    (h1 : ∀ c ∈ w1, isSpace c = true) (h2 : ∀ c ∈ w2, isSpace c = true)
    (hs : ScriptResult w pf req (w1 ++ a ++ w2 ++ ';' :: b))
    (hs' : ScriptResult w' pf' req' a) :
    (pf.findProxyForRequest w req).ret = (pf'.findProxyForRequest w' req').ret := by
  rw [findProxyForRequest_script w pf req _ hs, findProxyForRequest_script w' pf' req' _ hs']
  exact parseResult_congr _ _ _ _ (firstEntry_pad w1 a w2 b ha h1 h2)

/-- Witness for C6: the script results ` PROXY p:8080 ; DIRECT` and `PROXY p:8080`. -/
theorem first_entry_wins_witness :
    ';' ∉ "PROXY p:8080".toList ∧ (∀ c ∈ [' '], isSpace c = true) ∧
      (∀ c ∈ [' '], isSpace c = true) ∧
      ScriptResult world404 (onlineFinder " PROXY p:8080 ; DIRECT".toList)
        (getRequest { Scheme := "http".toList, Host := "a.example".toList })
        ([' '] ++ "PROXY p:8080".toList ++ [' '] ++ ';' :: " DIRECT".toList) ∧
      ScriptResult world404 (onlineFinder "PROXY p:8080".toList)
        (getRequest { Scheme := "http".toList, Host := "a.example".toList })
        "PROXY p:8080".toList ∧
      ((onlineFinder " PROXY p:8080 ; DIRECT".toList).findProxyForRequest world404
          (getRequest { Scheme := "http".toList, Host := "a.example".toList })).ret =
        ((onlineFinder "PROXY p:8080".toList).findProxyForRequest world404
          (getRequest { Scheme := "http".toList, Host := "a.example".toList })).ret :=
  ⟨by decide, by decide, by decide,
    ⟨constRunner " PROXY p:8080 ; DIRECT".toList, rfl, rfl, rfl⟩,
    ⟨constRunner "PROXY p:8080".toList, rfl, rfl, rfl⟩,
    first_entry_wins world404 (onlineFinder " PROXY p:8080 ; DIRECT".toList)
      (getRequest { Scheme := "http".toList, Host := "a.example".toList }) world404
      (onlineFinder "PROXY p:8080".toList)
      (getRequest { Scheme := "http".toList, Host := "a.example".toList })
      [' '] "PROXY p:8080".toList [' '] " DIRECT".toList (by decide) (by decide) (by decide)
      ⟨constRunner " PROXY p:8080 ; DIRECT".toList, rfl, rfl, rfl⟩
      ⟨constRunner "PROXY p:8080".toList, rfl, rfl, rfl⟩⟩

/-- Claim C7: when the trimmed first entry of the script result is `SOCKS`, blanks and a
single token free of white space (with or without a port), `findProxyForRequest` returns
a nil proxy and a nil error. -/
theorem socks_directive_direct (w : World) (pf : ProxyFinder) (req : Request)
    (s ws h : Str) (hs : ScriptResult w pf req s) (hws : Blanks ws) (hh : Token h)
    (ht : firstEntry s = ['S', 'O', 'C', 'K', 'S'] ++ ws ++ h) :
    (pf.findProxyForRequest w req).ret = .values none none := by
  rw [findProxyForRequest_script w pf req s hs]
  exact parseResult_socks req.id s ws h [] hws hh (Or.inl rfl) (by simpa using ht)

/-- Witness for C7: the script answers `SOCKS 10.0.0.1:1080`. -/
theorem socks_directive_direct_witness :
    ScriptResult world404 (onlineFinder "SOCKS 10.0.0.1:1080".toList)
        (getRequest { Scheme := "http".toList, Host := "a.example".toList })
        "SOCKS 10.0.0.1:1080".toList ∧
      Blanks [' '] ∧ Token "10.0.0.1:1080".toList ∧
      firstEntry "SOCKS 10.0.0.1:1080".toList =
        ['S', 'O', 'C', 'K', 'S'] ++ [' '] ++ "10.0.0.1:1080".toList ∧
      ((onlineFinder "SOCKS 10.0.0.1:1080".toList).findProxyForRequest world404
        (getRequest { Scheme := "http".toList, Host := "a.example".toList })).ret =
          .values none none :=
  ⟨⟨constRunner "SOCKS 10.0.0.1:1080".toList, rfl, rfl, rfl⟩, by unfold Blanks; decide,
    by unfold Token; decide, by decide,
    socks_directive_direct world404 (onlineFinder "SOCKS 10.0.0.1:1080".toList)
      (getRequest { Scheme := "http".toList, Host := "a.example".toList })
      "SOCKS 10.0.0.1:1080".toList [' '] "10.0.0.1:1080".toList
      ⟨constRunner "SOCKS 10.0.0.1:1080".toList, rfl, rfl, rfl⟩ (by unfold Blanks; decide)
      (by unfold Token; decide) (by decide)⟩

/-! ## What the script sees, and what the caller keeps -/

theorem FindProxyForURL_history (pr : PACRunner) (u : URL) :
    (pr.FindProxyForURL u).1.vm.history =
      (if u.Scheme = ['h', 't', 't', 'p', 's'] || u.Scheme = ['w', 's', 's'] then
          (URL.String { u with Path := [], RawPath := [], RawQuery := [], Fragment := [] },
            URL.Hostname { u with Path := [], RawPath := [], RawQuery := [], Fragment := [] })
        else (u.String, u.Hostname)) :: pr.vm.history := by
  unfold PACRunner.FindProxyForURL Otto.Call
  simp only
  split_ifs <;> split <;> (try split_ifs) <;> rfl

/-- The URL that keeps scheme, opaque part, user, host and query marker of `u` and nothing
else. -/
theorem String_stripped (u : URL) :
    URL.String { u with Path := [], RawPath := [], RawQuery := [], Fragment := [] } =
      URL.String (URL.mk u.Scheme u.Opaque u.User u.Host [] [] false u.ForceQuery [] [] []) := by
  obtain ⟨sch, op, us, ho, pa, rp, om, fq, rq, fr, rf⟩ := u
  cases om <;> cases us <;> by_cases hh : ho = [] <;>
    simp [URL.String, URL.EscapedPath, escape, bytes, hh]

/-- Counterexample to C8 as stated: two https URLs with the same scheme, host and port,
one of them with user and password; the script is called with different URL strings, and
user and password are in the second. -/
theorem userinfo_reaches_script :
    (urlOf "https" "example.com:8443" "/secret" "" "").Scheme =
        (withUser (urlOf "https" "example.com:8443" "/secret" "" "") "bob" "pw").Scheme ∧
      (urlOf "https" "example.com:8443" "/secret" "" "").Host =
        (withUser (urlOf "https" "example.com:8443" "/secret" "" "") "bob" "pw").Host ∧
      ((constRunner []).FindProxyForURL
          (urlOf "https" "example.com:8443" "/secret" "" "")).1.vm.history =
        [("https://example.com:8443".toList, "example.com".toList)] ∧
      ((constRunner []).FindProxyForURL
          (withUser (urlOf "https" "example.com:8443" "/secret" "" "") "bob" "pw")).1.vm.history =
        [("https://bob:pw@example.com:8443".toList, "example.com".toList)] := by
  decide

/-- Claim C8, amended: for URLs of scheme https or wss, path, query string and fragment do
not reach the script: two such URLs that agree on scheme, user information, host and
port, and opaque part, and that carry no bare question mark, are passed to the script as
the same pair of arguments, and the script returns the same for both. -/
theorem secure_url_stripped (pr : PACRunner) (u1 u2 : URL)
    (hsec : u1.Scheme = ['h', 't', 't', 'p', 's'] ∨ u1.Scheme = ['w', 's', 's'])
    (hscheme : u2.Scheme = u1.Scheme) (hhost : u2.Host = u1.Host) (huser : u2.User = u1.User)
    (hopq : u2.Opaque = u1.Opaque) (hq1 : u1.ForceQuery = false)
    (hq2 : u2.ForceQuery = false) :
    (pr.FindProxyForURL u1).1.vm.history = (pr.FindProxyForURL u2).1.vm.history ∧
      (pr.FindProxyForURL u1).2.2 = (pr.FindProxyForURL u2).2.2 := by
  have hc1 : (u1.Scheme = ['h', 't', 't', 'p', 's'] || u1.Scheme = ['w', 's', 's']) = true := by
    rcases hsec with h | h <;> simp [h]
  have hc2 : (u2.Scheme = ['h', 't', 't', 'p', 's'] || u2.Scheme = ['w', 's', 's']) = true := by
    rw [hscheme]; exact hc1
  have hstr : URL.String { u1 with Path := [], RawPath := [], RawQuery := [], Fragment := [] } =
      URL.String { u2 with Path := [], RawPath := [], RawQuery := [], Fragment := [] } := by
    rw [String_stripped u1, String_stripped u2]
    simp only [hscheme, hhost, huser, hopq, hq1, hq2]
  have hhn : URL.Hostname { u1 with Path := [], RawPath := [], RawQuery := [], Fragment := [] } =
      URL.Hostname { u2 with Path := [], RawPath := [], RawQuery := [], Fragment := [] } := by
    simp only [URL.Hostname, hhost]
  constructor
  · rw [FindProxyForURL_history, FindProxyForURL_history, if_pos hc1, if_pos hc2, hstr, hhn]
  · unfold PACRunner.FindProxyForURL Otto.Call
    simp only [hc1, hc2, if_true, hstr, hhn]
    split <;> (try split_ifs) <;> rfl

/-- Witness for the amended C8: two https URLs on the same host with different paths,
queries and fragments. -/
theorem secure_url_stripped_witness :
    ((urlOf "https" "example.com" "/a" "token=1" "top").Scheme = ['h', 't', 't', 'p', 's'] ∨
        (urlOf "https" "example.com" "/a" "token=1" "top").Scheme = ['w', 's', 's']) ∧
      (((constRunner "DIRECT".toList).FindProxyForURL
          (urlOf "https" "example.com" "/a" "token=1" "top")).1.vm.history =
        ((constRunner "DIRECT".toList).FindProxyForURL
          (urlOf "https" "example.com" "/b/c" "" "")).1.vm.history ∧
      ((constRunner "DIRECT".toList).FindProxyForURL
          (urlOf "https" "example.com" "/a" "token=1" "top")).2.2 =
        ((constRunner "DIRECT".toList).FindProxyForURL
          (urlOf "https" "example.com" "/b/c" "" "")).2.2) :=
  ⟨Or.inl rfl,
    secure_url_stripped (constRunner "DIRECT".toList)
      (urlOf "https" "example.com" "/a" "token=1" "top")
      (urlOf "https" "example.com" "/b/c" "" "") (Or.inl rfl) rfl rfl rfl rfl rfl rfl⟩

/-- Claim C10, evaluated where it fails: after `findProxyForRequest` on a request for
`https://example.com/secret?token=1#top`, the URL of the request has lost path, query and
fragment, and the log line of the decision shows the shortened URL. -/
theorem request_url_overwritten :
    ((onlineFinder "DIRECT".toList).findProxyForRequest world404
        (getRequest (urlOf "https" "example.com" "/secret" "token=1" "top"))).req.URL =
        urlOf "https" "example.com" "" "" "" ∧
      ((onlineFinder "DIRECT".toList).findProxyForRequest world404
        (getRequest (urlOf "https" "example.com" "/secret" "token=1" "top"))).log =
        [.via 1 "GET".toList "https://example.com".toList "DIRECT".toList] ∧
      ((onlineFinder "DIRECT".toList).findProxyForRequest world404
        (getRequest (urlOf "http" "example.com" "/secret" "token=1" "top"))).req.URL =
        urlOf "http" "example.com" "/secret" "token=1" "top" := by
  decide

end Alpaca
